import Mathlib

/-!
# Verification of the gemini-balance Key Lifecycle Subsystem

Shallow embedding of the key-lifecycle code of the `gemini-balance`
repository, and proofs about it.  Sources embedded here:

* `app/service/key/key_manager.py` — `KeyManager` (registry, counters,
  cooldowns, rotation cycle).
* `app/service/key/valid_key_models.py` — `ValidKeyWithTTL`.
* `app/service/key/valid_key_pool.py` — `ValidKeyPool` (TTL queue,
  emergency refill).
* `app/handler/error_processor.py` — error classification and actions.
* `app/handler/retry_handler.py` — bounded retry wrapper.
* `app/scheduler/scheduled_tasks.py` — staggered batch verification.

Conventions: timestamps are naturals (seconds); Python `dict`s keyed by
strings are association lists in insertion order (Python dicts preserve
insertion order and hold each key once); a Python `KeyError` /
`StopIteration` raise is modelled by `none` of an `Option` result.
-/

/-! ## String helpers: Python's `in` operator and the status-code regex -/

/-- `strStarts pat l`: the character list `l` starts with `pat`
(Python `str.startswith`, used to model substring search). -/
def strStarts : List Char → List Char → Bool
  | [], _ => true
  | _ :: _, [] => false
  | p :: ps, c :: cs => p == c && strStarts ps cs

/-- `hasSubL pat l`: `pat` occurs as a contiguous substring of `l`
(Python's `pat in s`). -/
def hasSubL (pat : List Char) : List Char → Bool
  | [] => pat.isEmpty
  | c :: t => strStarts pat (c :: t) || hasSubL pat t

/-- Python substring test `pat in s` on `String`s. -/
def strHasSub (s pat : String) : Bool := hasSubL pat.toList s.toList

/-- Value of a digit run (most significant first), as used by `int(...)`
on a regex group. -/
def digitsToNat (l : List Char) : Nat :=
  l.foldl (fun a c => a * 10 + (c.toNat - 48)) 0

/-- Model of `re.search(r"status code (\d+)", s)` followed by
`int(match.group(1))`: scan left to right for the first position where the
literal `"status code "` is followed by at least one digit, and return the
value of the maximal digit run there (`error_processor.py` line 33). -/
def scanStatusCode : List Char → Option Nat
  | [] => none
  | c :: t =>
    if strStarts "status code ".toList (c :: t) then
      let ds := ((c :: t).drop 12).takeWhile Char.isDigit
      if ds.isEmpty then scanStatusCode t else some (digitsToNat ds)
    else scanStatusCode t

/-- `findStatusCode s`: the parsed `"status code <digits>"` value of the
error text, if any. -/
def findStatusCode (s : String) : Option Nat := scanStatusCode s.toList

/-! ## Association-list operations (Python `dict` semantics) -/

/-- Overwrite the value stored at key `k` (no-op on absent keys):
`d[k] = v` when `k` is already present. -/
def alSet (m : List (String × α)) (k : String) (v : α) : List (String × α) :=
  m.map (fun p => if p.1 = k then (p.1, v) else p)

/-- Python `d[k] = v`: overwrite when present, append when absent
(insertion order preserved). -/
def alInsert (m : List (String × α)) (k : String) (v : α) : List (String × α) :=
  if (m.lookup k).isSome then alSet m k v else m ++ [(k, v)]

/-! ## ValidKeyWithTTL (`valid_key_models.py`) -/

/-- `ValidKeyWithTTL` (`valid_key_models.py` lines 14-38): a pooled key with
its creation and expiry instants (`expires_at = created_at + ttl`). -/
structure ValidKeyWithTTL where
  key : String
  created_at : Nat
  expires_at : Nat
  deriving DecidableEq, Repr

/-- Constructor `ValidKeyWithTTL(key, ttl_hours)` at instant `now`
(`created_at = now`, `expires_at = created_at + timedelta(hours=ttl_hours)`). -/
def mkValidKey (key : String) (ttlHours now : Nat) : ValidKeyWithTTL :=
  ⟨key, now, now + ttlHours * 3600⟩

/-- `ValidKeyWithTTL.is_expired` (`valid_key_models.py` lines 42-55):
`datetime.now() > expires_at`. -/
def is_expired (now : Nat) (e : ValidKeyWithTTL) : Bool :=
  decide (now > e.expires_at)

/-! ## Valid key pool state (`valid_key_pool.py`) -/

/-- The deterministic part of a `ValidKeyPool`: the bounded FIFO of
`ValidKeyWithTTL` entries plus the statistics counters the claims mention. -/
structure PoolState where
  poolSize : Nat
  ttlHours : Nat
  queue : List ValidKeyWithTTL
  expiredRemoved : Nat
  hitCount : Nat
  missCount : Nat
  deriving DecidableEq, Repr

/-- Append onto a `collections.deque(maxlen := maxlen)`: the new element is
appended and, when the deque would exceed `maxlen`, elements are discarded
from the left. -/
def dequeAppend (maxlen : Nat) (q : List ValidKeyWithTTL) (x : ValidKeyWithTTL) :
    List ValidKeyWithTTL :=
  (q ++ [x]).drop (q.length + 1 - maxlen)

/-- `ValidKeyPool._remove_expired_keys` (`valid_key_pool.py` lines 501-525):
pop everything, keep the non-expired entries in order, count the expired
ones. -/
def remove_expired_keys (now : Nat) : List ValidKeyWithTTL → List ValidKeyWithTTL × Nat
  | [] => ([], 0)
  | e :: q =>
    if is_expired now e then
      ((remove_expired_keys now q).1, (remove_expired_keys now q).2 + 1)
    else ((e :: (remove_expired_keys now q).1), (remove_expired_keys now q).2)

/-- The pop loop of `ValidKeyPool.get_valid_key` (`valid_key_pool.py` lines
97-159): pop entries from the head; an expired entry is counted
(`expired_keys_removed`) and skipped; the first live entry is the hit.
Returns (hit entry, remaining queue, expired entries counted). -/
def pop_valid_loop (now : Nat) : List ValidKeyWithTTL → Option ValidKeyWithTTL × List ValidKeyWithTTL × Nat
  | [] => (none, [], 0)
  | e :: q =>
    if is_expired now e then
      ((pop_valid_loop now q).1, (pop_valid_loop now q).2.1, (pop_valid_loop now q).2.2 + 1)
    else (some e, q, 0)

/-- Result of the synchronous part of `get_valid_key`: a pool hit returning
a live key, or a miss (the code then enters emergency refill). -/
inductive PoolStepResult where
  | hit (k : String) (p' : PoolState)
  | miss (p' : PoolState)
  deriving DecidableEq, Repr

/-- The deterministic core of `ValidKeyPool.get_valid_key`
(`valid_key_pool.py` lines 80-169): remove expired entries, then pop until
a live entry is found (hit) or the queue is exhausted (miss).  The
asynchronous refill tasks spawned on a hit only mutate the pool after the
call returns and are modelled separately (`emergency_insert_loop`,
`emergency_refill_async_insert`).  Note that no model-cooldown check is
performed on the returned key. -/
def get_valid_key_step (p : PoolState) (now : Nat) : PoolStepResult :=
  let rc := remove_expired_keys now p.queue
  match pop_valid_loop now rc.1 with
  | (some e, q2, c2) =>
    .hit e.key { p with queue := q2,
                        expiredRemoved := p.expiredRemoved + rc.2 + c2,
                        hitCount := p.hitCount + 1 }
  | (none, q2, c2) =>
    .miss { p with queue := q2,
                   expiredRemoved := p.expiredRemoved + rc.2 + c2,
                   missCount := p.missCount + 1 }

/-- The insertion loop of `ValidKeyPool.emergency_refill`
(`valid_key_pool.py` lines 276-292): walk the verification results in
order; a successful result (`some k`) is appended as a fresh
`ValidKeyWithTTL` if the pool still has capacity, and the first successful
key is remembered for return; when the pool is full the loop records the
first success (if still unset) and breaks.  No membership check is made
before appending. -/
def emergency_insert_loop (poolSize ttl now : Nat) :
    List (Option String) → List ValidKeyWithTTL → Option String →
    List ValidKeyWithTTL × Option String
  | [], q, fv => (q, fv)
  | none :: rs, q, fv => emergency_insert_loop poolSize ttl now rs q fv
  | some k :: rs, q, fv =>
    if poolSize ≤ q.length then (q, some (fv.getD k))
    else emergency_insert_loop poolSize ttl now rs
      (dequeAppend poolSize q (mkValidKey k ttl now)) (some (fv.getD k))

/-- The insertion loop of `ValidKeyPool.emergency_refill_async`
(`valid_key_pool.py` lines 344-355): append every successful verification
result while the pool has capacity; break when full.  No membership check
is made before appending. -/
def emergency_refill_async_insert (poolSize ttl now : Nat) :
    List (Option String) → List ValidKeyWithTTL → List ValidKeyWithTTL
  | [], q => q
  | none :: rs, q => emergency_refill_async_insert poolSize ttl now rs q
  | some k :: rs, q =>
    if poolSize ≤ q.length then q
    else emergency_refill_async_insert poolSize ttl now rs
      (dequeAppend poolSize q (mkValidKey k ttl now))

/-! ## KeyManager state and operations (`key_manager.py`) -/

/-- The `KeyManager` registry state (`key_manager.py` lines 16-59; the
Vertex twin structures are omitted — no claim concerns them). -/
structure KMState where
  apiKeys : List String
  cursor : Nat
  counts : List (String × Int)
  modelStatus : List (String × List (String × Nat))
  maxFailures : Int
  pool : Option PoolState
  deriving DecidableEq, Repr

/-- `KeyManager.__init__` (`key_manager.py` lines 16-59): failure counters
start at 0 for each configured key; the valid key pool is created only when
`VALID_KEY_POOL_ENABLED` is set and the key list is non-empty. -/
def kmInit (apiKeys : List String) (maxFailures : Int) (poolEnabled : Bool)
    (poolSize ttlHours : Nat) : KMState :=
  { apiKeys := apiKeys
    cursor := 0
    counts := apiKeys.map (fun k => (k, (0 : Int)))
    modelStatus := []
    maxFailures := maxFailures
    pool := if poolEnabled && !apiKeys.isEmpty then
      some ⟨poolSize, ttlHours, [], 0, 0, 0⟩ else none }

/-- `KeyManager.get_next_key` (`key_manager.py` lines 117-120):
`next(self.key_cycle)` on `itertools.cycle(api_keys)`.  On an empty key
list `next` raises `StopIteration`, modelled by `none`. -/
def get_next_key (st : KMState) : Option (String × KMState) :=
  match st.apiKeys with
  | [] => none
  | a :: t => some ((a :: t).get ⟨st.cursor % (a :: t).length, Nat.mod_lt _ (by simp)⟩,
      { st with cursor := st.cursor + 1 })

/-- `KeyManager.is_key_valid` (`key_manager.py` lines 127-130):
`self.key_failure_counts[key] < self.MAX_FAILURES`; a key absent from the
counter dict raises `KeyError` (`none`). -/
def is_key_valid (st : KMState) (k : String) : Option Bool :=
  (st.counts.lookup k).map (fun c => decide (c < st.maxFailures))

/-- `KeyManager.reset_key_failure_count` (`key_manager.py` lines 149-159):
reset to 0 when the key exists and return `True`; otherwise return `False`
without mutating anything. -/
def reset_key_failure_count (st : KMState) (k : String) : KMState × Bool :=
  if (st.counts.lookup k).isSome then
    ({ st with counts := alSet st.counts k 0 }, true)
  else (st, false)

/-- `KeyManager.mark_key_as_failed` (`key_manager.py` lines 271-276): set
the counter to `MAX_FAILURES` when the key exists; no-op otherwise. -/
def mark_key_as_failed (st : KMState) (k : String) : KMState :=
  if (st.counts.lookup k).isSome then
    { st with counts := alSet st.counts k st.maxFailures }
  else st

/-- The counter mutation of `KeyManager.handle_api_failure`
(`key_manager.py` lines 280-285): `self.key_failure_counts[api_key] += 1`
with no clamping; an absent key raises `KeyError` (`none`). -/
def handle_api_failure_counts (st : KMState) (k : String) : Option KMState :=
  (st.counts.lookup k).map (fun c => { st with counts := alSet st.counts k (c + 1) })

/-- The quota-reset computation of `KeyManager.mark_key_model_as_cooling`
(`key_manager.py` lines 253-263): today's reset instant (`reset_hour`
o'clock) if it is still ahead, else tomorrow's. -/
def next_reset_time (now resetHour : Nat) : Nat :=
  let todayReset := now / 86400 * 86400 + resetHour * 3600
  if todayReset ≤ now then todayReset + 86400 else todayReset

/-- `KeyManager.mark_key_model_as_cooling` (`key_manager.py` lines
243-269): store the next reset instant under
`key_model_status[api_key][model_name]`, creating the inner dict if
needed.  The failure counters are not touched. -/
def mark_key_model_as_cooling (st : KMState) (k m : String) (now resetHour : Nat) :
    KMState :=
  let inner := (st.modelStatus.lookup k).getD []
  { st with modelStatus :=
      alInsert st.modelStatus k (alInsert inner m (next_reset_time now resetHour)) }

/-- The model-cooldown check of one loop iteration (step "2." of
`_original_get_next_working_key`, `key_manager.py` lines 211-222): with a
model given and a live cooldown for `(cur, model)` the loop advances
(`advance` is the "get next key and continue" continuation); otherwise the
current key passes. -/
def orig_check (model : Option String) (now : Nat) (st : KMState) (cur : String)
    (advance : Option (String × KMState)) : Option (String × KMState) :=
  match model with
  | some m =>
    match (st.modelStatus.lookup cur).bind (fun inner => inner.lookup m) with
    | some expiry => if now < expiry then advance else some (cur, st)
    | none => some (cur, st)
  | none => some (cur, st)

/-- The scan loop of `KeyManager._original_get_next_working_key`
(`key_manager.py` lines 201-228): up to `len(api_keys) + 1` iterations;
a generally-invalid key, or (when a model is given) a key in live cooldown
for that model, advances the cycle; the first passing key is returned; when
the loop budget runs out the initial key is returned as fallback.  (The
inner early-return guards `current_key == initial_key and _ > len(...)`
never fire: the loop index never exceeds `len(api_keys)`.)  A `KeyError`
from the counter dict propagates as `none`. -/
def orig_loop (model : Option String) (now : Nat) (initial : String) :
    Nat → KMState → String → Option (String × KMState)
  | 0, st, _ => some (initial, st)
  | fuel + 1, st, cur =>
    (is_key_valid st cur).bind (fun valid =>
      if !valid then
        (get_next_key st).bind (fun p => orig_loop model now initial fuel p.2 p.1)
      else
        orig_check model now st cur
          ((get_next_key st).bind (fun p => orig_loop model now initial fuel p.2 p.1)))

/-- `KeyManager._original_get_next_working_key` (`key_manager.py` lines
193-228).  `none` models the `StopIteration` raised by `next(...)` on an
empty key cycle. -/
def original_get_next_working_key (st : KMState) (model : Option String)
    (now : Nat) : Option (String × KMState) :=
  match get_next_key st with
  | none => none
  | some (initial, st1) => orig_loop model now initial (st.apiKeys.length + 1) st1 initial

/-- Outcomes of the verification tasks launched by an emergency refill
(`_verify_key_for_emergency` returns the key on success, `None` on
failure), in the order the sampled keys are gathered. -/
structure EmergencyOracle where
  results : List (Option String)
  deriving Repr

/-- Result of `KeyManager.get_next_working_key`. -/
inductive NKOutcome where
  /-- A live key popped from the valid key pool (no model-cooldown check). -/
  | poolHit (k : String)
  /-- The first key verified successfully during emergency refill. -/
  | emergencyReturn (k : String)
  /-- The emergency path re-enters `get_next_working_key` while still
  holding `emergency_lock` (lines 260 and 306 of `valid_key_pool.py`); the
  re-entrant await of the same non-reentrant `asyncio.Lock` is not expanded
  here. -/
  | emergencyFallback
  /-- A key selected by the original rotation scan (pool disabled). -/
  | fromOriginal (k : String)
  /-- `StopIteration` from `next(...)` on the empty key cycle. -/
  | stopIteration
  deriving DecidableEq, Repr

/-- The key returned to the caller, when one is returned at all. -/
def NKOutcome.returnedKey : NKOutcome → Option String
  | .poolHit k => some k
  | .emergencyReturn k => some k
  | .fromOriginal k => some k
  | .emergencyFallback => none
  | .stopIteration => none

/-- `KeyManager.get_next_working_key` (`key_manager.py` lines 173-191)
composed with `ValidKeyPool.get_valid_key` / `emergency_refill`
(`valid_key_pool.py` lines 80-169 and 235-306): prefer the pool; a pool
hit returns the popped key directly; a miss runs the emergency refill over
the oracle's verification outcomes; with no generally-valid key, or no
successful verification, the code re-enters itself
(`NKOutcome.emergencyFallback`).  Without a pool, the original rotation
scan decides. -/
def get_next_working_key (st : KMState) (model : Option String) (now : Nat)
    (orc : EmergencyOracle) : NKOutcome × KMState :=
  match st.pool with
  | none =>
    match original_get_next_working_key st model now with
    | none => (.stopIteration, st)
    | some (k, st') => (.fromOriginal k, st')
  | some p =>
    match get_valid_key_step p now with
    | .hit k p' => (.poolHit k, { st with pool := some p' })
    | .miss p' =>
      let available := st.apiKeys.filter (fun k => is_key_valid st k == some true)
      if available.isEmpty then (.emergencyFallback, { st with pool := some p' })
      else
        let ins := emergency_insert_loop p'.poolSize p'.ttlHours now orc.results p'.queue none
        let st' := { st with pool := some { p' with queue := ins.1 } }
        match ins.2 with
        | some k => (.emergencyReturn k, st')
        | none => (.emergencyFallback, st')

/-- Result of `KeyManager.handle_api_failure` (`key_manager.py` lines
278-289): a next working key when `retries < MAX_RETRIES`, else the empty
string sentinel. -/
inductive ApiFailureResult where
  | nextKey (o : NKOutcome) (st : KMState)
  | emptyKey (st : KMState)
  deriving DecidableEq, Repr

/-- Registry state carried by an `ApiFailureResult`. -/
def ApiFailureResult.state : ApiFailureResult → KMState
  | .nextKey _ st => st
  | .emptyKey st => st

/-- Outcome carried by an `ApiFailureResult` (the empty-string sentinel on
the `emptyKey` branch). -/
def ApiFailureResult.key : ApiFailureResult → Option String
  | .nextKey o _ => o.returnedKey
  | .emptyKey _ => none

/-- `KeyManager.handle_api_failure` (`key_manager.py` lines 278-289):
increment the failure counter (a `KeyError` on an absent key propagates as
`none`), warn at the ceiling, then select the next working key when
`retries < MAX_RETRIES`, else return the empty string. -/
def handle_api_failure (st : KMState) (k : String) (retries maxRetries : Nat)
    (model : Option String) (now : Nat) (orc : EmergencyOracle) :
    Option ApiFailureResult :=
  (handle_api_failure_counts st k).map (fun st1 =>
    if retries < maxRetries then
      let r := get_next_working_key st1 model now orc
      .nextKey r.1 r.2
    else .emptyKey st1)

/-! ## Error classification (`error_processor.py` lines 16-77) -/

/-- `"429" in error_str` (`error_processor.py` line 19). -/
def is_429_error (s : String) : Bool := strHasSub s "429"

/-- `"401" in error_str or "403" in error_str` (line 20). -/
def is_auth_error (s : String) : Bool := strHasSub s "401" || strHasSub s "403"

/-- `"400" in ... or "404" in ... or "422" in ...` (line 21). -/
def is_client_error (s : String) : Bool :=
  strHasSub s "400" || strHasSub s "404" || strHasSub s "422"

/-- `"500" in ... or "502" in ... or "504" in ...` (line 22). -/
def is_server_error (s : String) : Bool :=
  strHasSub s "500" || strHasSub s "502" || strHasSub s "504"

/-- `"503" in error_str` (line 23). -/
def is_service_unavailable (s : String) : Bool := strHasSub s "503"

/-- `"408" in error_str` (line 24). -/
def is_timeout_error (s : String) : Bool := strHasSub s "408"

/-- The `error_type` strings of `error_processor.py` lines 62-77. -/
inductive ErrorType where
  | RATE_LIMIT
  | AUTH_ERROR
  | CLIENT_ERROR
  | SERVER_ERROR
  | SERVICE_UNAVAILABLE
  | TIMEOUT_ERROR
  | UNKNOWN_ERROR
  deriving DecidableEq, Repr

/-- `error_type` assignment (`error_processor.py` lines 62-77): decided by
the bare substring flags, in this order, regardless of any
`"status code <digits>"` match. -/
def error_type_of (s : String) : ErrorType :=
  if is_429_error s then .RATE_LIMIT
  else if is_auth_error s then .AUTH_ERROR
  else if is_client_error s then .CLIENT_ERROR
  else if is_server_error s then .SERVER_ERROR
  else if is_service_unavailable s then .SERVICE_UNAVAILABLE
  else if is_timeout_error s then .TIMEOUT_ERROR
  else .UNKNOWN_ERROR

/-- `error_code` extraction (`error_processor.py` lines 31-60): the regex
`"status code (\d+)"` first; otherwise the flags in priority order, with
the bare substrings probed inside each flag group. -/
def extract_error_code (s : String) : Option Nat :=
  match findStatusCode s with
  | some c => some c
  | none =>
    if is_429_error s then some 429
    else if is_auth_error s then
      if strHasSub s "401" then some 401
      else if strHasSub s "403" then some 403
      else none
    else if is_client_error s then
      if strHasSub s "400" then some 400
      else if strHasSub s "404" then some 404
      else if strHasSub s "422" then some 422
      else none
    else if is_server_error s then
      if strHasSub s "500" then some 500
      else if strHasSub s "502" then some 502
      else if strHasSub s "504" then some 504
      else none
    else if is_service_unavailable s then some 503
    else if is_timeout_error s then some 408
    else none

/-- `handle_api_error_and_get_next_key` (`error_processor.py` lines
97-127), the registry-mutating tail after the fire-and-forget error log:
429 cools the (key, model) pair — or fails the key when no model is given —
then selects the next working key; auth/client/server errors fail the key
and select; 503/408 only select, with no registry mutation; anything else
goes through `KeyManager.handle_api_failure`. -/
def handle_api_error_and_get_next_key (st : KMState) (errStr oldKey : String)
    (model : Option String) (retries maxRetries : Nat) (now resetHour : Nat)
    (orc : EmergencyOracle) : Option ApiFailureResult :=
  if is_429_error errStr then
    let st1 := match model with
      | some m => mark_key_model_as_cooling st oldKey m now resetHour
      | none => mark_key_as_failed st oldKey
    let r := get_next_working_key st1 model now orc
    some (.nextKey r.1 r.2)
  else if is_auth_error errStr || is_client_error errStr || is_server_error errStr then
    let st1 := mark_key_as_failed st oldKey
    let r := get_next_working_key st1 model now orc
    some (.nextKey r.1 r.2)
  else if is_service_unavailable errStr || is_timeout_error errStr then
    let r := get_next_working_key st model now orc
    some (.nextKey r.1 r.2)
  else
    handle_api_failure st oldKey retries maxRetries model now orc

/-! ## Retry handler (`retry_handler.py` lines 19-74) -/

/-- The per-exception branch of the `RetryHandler.__call__` wrapper
(`retry_handler.py` lines 40-58) — note that it does NOT call
`handle_api_error_and_get_next_key`: `"429" in str(e)` together with a
model cools the (key, model) pair and selects the next key; `"403" in
str(e)` fails the key and selects; every other error — including 503 and
408 — goes through `KeyManager.handle_api_failure`, which increments the
key's failure counter. -/
def retry_handler_error_step (st : KMState) (errStr oldKey : String)
    (model : Option String) (retries maxRetries : Nat) (now resetHour : Nat)
    (orc : EmergencyOracle) : Option ApiFailureResult :=
  if is_429_error errStr && model.isSome then
    let st1 := mark_key_model_as_cooling st oldKey (model.getD "") now resetHour
    let r := get_next_working_key st1 model now orc
    some (.nextKey r.1 r.2)
  else if strHasSub errStr "403" then
    let st1 := mark_key_as_failed st oldKey
    let r := get_next_working_key st1 model now orc
    some (.nextKey r.1 r.2)
  else
    handle_api_failure st oldKey retries maxRetries model now orc

/-- Result of a `RetryHandler`-wrapped call. -/
inductive RetryOutcome (E V : Type) where
  /-- Some attempt returned successfully. -/
  | ok (v : V)
  /-- The exception captured on the last attempt made is re-raised. -/
  | raised (e : E)
  /-- `MAX_RETRIES = 0`: the loop body never runs and `raise last_exception`
  raises `None` (a `TypeError` in Python). -/
  | raisedNone
  deriving DecidableEq, Repr

/-- The retry loop of `RetryHandler.__call__` (`retry_handler.py` lines
21-72), abstracted over the wrapped call `f` (outcome of attempt `i` with
the current key) and the key produced by the error handling `classify`
(where `none` models a falsy new key, which breaks the loop).  Returns the
outcome together with the number of times `f` was invoked.  The `fuel`
argument counts the remaining loop iterations; `last` is
`last_exception`. -/
def retry_go (f : Nat → String → Except E V) (classify : Nat → String → E → Option String) :
    Nat → Nat → String → Option E → RetryOutcome E V × Nat
  | 0, _, _, last =>
    (match last with
     | some e => .raised e
     | none => .raisedNone, 0)
  | fuel + 1, i, key, _ =>
    match f i key with
    | .ok v => (.ok v, 1)
    | .error e =>
      match classify i key e with
      | none => (.raised e, 1)
      | some k' =>
        let r := retry_go f classify fuel (i + 1) k' (some e)
        (r.1, r.2 + 1)

/-- A full `RetryHandler`-wrapped call with `settings.MAX_RETRIES =
maxRetries`, starting from key `key0`. -/
def retry_handler_call (maxRetries : Nat) (f : Nat → String → Except E V)
    (classify : Nat → String → E → Option String) (key0 : String) :
    RetryOutcome E V × Nat :=
  retry_go f classify maxRetries 0 key0 none

/-! ## Scheduled verifier (`scheduled_tasks.py` lines 87-137) -/

/-- `total_batches = (total_keys + batch_size - 1) // batch_size`
(`scheduled_tasks.py` line 103). -/
def total_batches (n batchSize : Nat) : Nat := (n + batchSize - 1) / batchSize

/-- `keys_to_check[start_idx:end_idx]` with `start_idx = batch_num *
batch_size` and `end_idx = min(start_idx + batch_size, total_keys)`
(`scheduled_tasks.py` lines 117-119). -/
def verification_batch (keys : List String) (batchSize i : Nat) : List String :=
  (keys.drop (i * batchSize)).take batchSize

/-- `batch_interval = interval_seconds // total_batches if total_batches > 1
else 0` (`scheduled_tasks.py` line 106). -/
def batch_interval (intervalSeconds totalB : Nat) : Nat :=
  if 1 < totalB then intervalSeconds / totalB else 0

/-- The guard of the inter-batch sleep (`scheduled_tasks.py` line 133):
`batch_num < total_batches - 1 and batch_interval > 0`. -/
def sleep_after_batch (i totalB intervalSeconds : Nat) : Bool :=
  decide (i < totalB - 1) && decide (0 < batch_interval intervalSeconds totalB)

/-! ## Concrete fixtures used by witnesses and counterexamples -/

/-- A wrapped call that fails on every attempt (witness fixture). -/
def alwaysFailF : Nat → String → Except String Nat := fun _ _ => .error "boom"

/-- A classifier that always hands back the same substitute key
(witness fixture). -/
def alwaysSwitchClassify : Nat → String → String → Option String :=
  fun _ _ _ => some "key-2"

/-- Pool holding one live entry for key `"A"` (C5 fixture). -/
def c5Pool : PoolState :=
  { poolSize := 10, ttlHours := 2
    queue := [mkValidKey "A" 2 0]
    expiredRemoved := 0, hitCount := 0, missCount := 0 }

/-- The pool after the C5 hit pops `"A"`. -/
def c5PoolAfter : PoolState :=
  { poolSize := 10, ttlHours := 2
    queue := []
    expiredRemoved := 0, hitCount := 1, missCount := 0 }

/-- Registry state for the C5 counterexample: two healthy keys, the valid
key pool enabled and holding one live entry for key `"A"`. -/
def c5State : KMState :=
  { apiKeys := ["A", "B"]
    cursor := 0
    counts := [("A", 0), ("B", 0)]
    maxFailures := 3
    modelStatus := []
    pool := some c5Pool }

/-- Pool state for the C7 witness: an expired entry at the head, then a
live one. -/
def c7Pool : PoolState :=
  { poolSize := 4, ttlHours := 2
    queue := [⟨"X", 0, 5⟩, ⟨"Y", 0, 20000⟩]
    expiredRemoved := 0, hitCount := 0, missCount := 0 }

/-- The pool after the C7 hit at time 10000: the expired `"X"` was counted
and dropped, the live `"Y"` was popped and returned. -/
def c7After : PoolState :=
  { poolSize := 4, ttlHours := 2
    queue := []
    expiredRemoved := 1, hitCount := 1, missCount := 0 }

/-! ## Helper lemmas -/

theorem lookup_alSet_self (m : List (String × α)) (k : String) (v : α)
    (h : (m.lookup k).isSome) : (alSet m k v).lookup k = some v := by
  induction m with
  | nil => simp [List.lookup] at h
  | cons p t ih =>
    by_cases hp : p.1 = k
    · subst hp
      show List.lookup p.1 ((if p.1 = p.1 then (p.1, v) else p) :: alSet t p.1 v) = some v
      rw [if_pos rfl]
      simp [List.lookup]
    · have hk : (k == p.1) = false := beq_eq_false_iff_ne.mpr (fun hkk => hp hkk.symm)
      simp only [List.lookup, hk] at h
      show List.lookup k ((if p.1 = k then (p.1, v) else p) :: alSet t k v) = some v
      rw [if_neg hp]
      simp only [List.lookup, hk]
      exact ih h

theorem lookup_append_right (m : List (String × α)) (k : String) (v : α)
    (h : m.lookup k = none) : (m ++ [(k, v)]).lookup k = some v := by
  induction m with
  | nil => simp [List.lookup]
  | cons p t ih =>
    by_cases hp : k = p.1
    · simp [List.lookup, hp] at h
    · have hp' : (k == p.1) = false := by simp [beq_eq_false_iff_ne]; exact hp
      simp only [List.lookup, hp'] at h
      simpa [List.lookup, hp'] using ih h

theorem lookup_alInsert_self (m : List (String × α)) (k : String) (v : α) :
    (alInsert m k v).lookup k = some v := by
  unfold alInsert
  by_cases h : (m.lookup k).isSome
  · simp only [h, if_true]
    exact lookup_alSet_self m k v h
  · simp only [h, if_false]
    exact lookup_append_right m k v (by
      cases hm : m.lookup k with
      | none => rfl
      | some w => rw [hm] at h; simp at h)

theorem lookup_map_const_zero (keys : List String) (k : String)
    (h : k ∉ keys) : (keys.map (fun s => (s, (0 : Int)))).lookup k = none := by
  induction keys with
  | nil => rfl
  | cons a t ih =>
    have ha : (k == a) = false := by
      simp [beq_eq_false_iff_ne]; intro hk; exact h (hk ▸ List.mem_cons_self a t)
    simp only [List.map, List.lookup, ha]
    exact ih (fun hm => h (List.mem_cons_of_mem a hm))

theorem lookup_mem (m : List (String × α)) (k : String) (v : α)
    (h : m.lookup k = some v) : (k, v) ∈ m := by
  induction m with
  | nil => simp [List.lookup] at h
  | cons p t ih =>
    by_cases hp : k = p.1
    · have hk : (k == p.1) = true := beq_iff_eq.mpr hp
      simp only [List.lookup, hk] at h
      injection h with hv
      have hkv : (k, v) = p := by rw [hp, ← hv]
      rw [hkv]
      exact List.mem_cons_self p t
    · have hk : (k == p.1) = false := beq_eq_false_iff_ne.mpr hp
      simp only [List.lookup, hk] at h
      exact List.mem_cons_of_mem p (ih h)

theorem mem_alSet (m : List (String × α)) (k : String) (v : α) (p : String × α)
    (hp : p ∈ alSet m k v) : p ∈ m ∨ p.2 = v := by
  unfold alSet at hp
  obtain ⟨q, hq, hqp⟩ := List.mem_map.mp hp
  by_cases hqk : q.1 = k
  · rw [if_pos hqk] at hqp
    right
    rw [← hqp]
  · rw [if_neg hqk] at hqp
    left
    rw [← hqp]
    exact hq

theorem dequeAppend_length_le (maxlen : Nat) (q : List ValidKeyWithTTL)
    (x : ValidKeyWithTTL) : (dequeAppend maxlen q x).length ≤ maxlen := by
  simp only [dequeAppend, List.length_drop, List.length_append, List.length_cons,
    List.length_nil]
  omega

theorem dequeAppend_not_full (maxlen : Nat) (q : List ValidKeyWithTTL)
    (x : ValidKeyWithTTL) (h : q.length < maxlen) :
    dequeAppend maxlen q x = q ++ [x] := by
  simp only [dequeAppend]
  have h0 : q.length + 1 - maxlen = 0 := by omega
  simp [h0]

/-! ## Claim C2 — failure counter bounds -/

/-- C2 counterexample: starting from a registry initialized with the single
key `"A"` and `MAX_FAILURES = 3`, the operation sequence
`mark_key_as_failed "A"` (counter = 3) followed by `handle_api_failure "A"`
drives the counter to 4, strictly above `MAX_FAILURES` — the claimed clamp
`failCount[k] ≤ M` does not exist in the code. -/
theorem c2_counterexample :
    (handle_api_failure (mark_key_as_failed (kmInit ["A"] 3 false 0 0) "A") "A"
        3 3 none 0 ⟨[]⟩).map (fun r => r.state.counts.lookup "A") = some (some 4)
    ∧ (kmInit ["A"] 3 false 0 0).maxFailures = 3
    ∧ ¬ ((4 : Int) ≤ 3) := by
  refine ⟨by decide, by decide, by decide⟩

/-- C2 (amended): the lower bound `0 ≤ failCount[k]` is preserved by
`handle_api_failure`, `mark_key_as_failed` and `reset_key_failure_count`
(given `0 ≤ MAX_FAILURES`), but the increment performed by
`handle_api_failure` is unclamped: the new counter value is exactly the old
value plus one, so it can exceed `MAX_FAILURES` (the key simply stays
generally-invalid, since validity is `failCount < MAX_FAILURES`). -/
theorem c2_amended (st : KMState) (k : String) (c : Int)
    (hpos : ∀ p ∈ st.counts, 0 ≤ p.2) (hM : 0 ≤ st.maxFailures)
    (hc : st.counts.lookup k = some c) :
    ∃ st2, handle_api_failure_counts st k = some st2
      ∧ st2.counts.lookup k = some (c + 1)
      ∧ (∀ p ∈ st2.counts, 0 ≤ p.2)
      ∧ (∀ p ∈ (mark_key_as_failed st k).counts, 0 ≤ p.2)
      ∧ (∀ p ∈ (reset_key_failure_count st k).1.counts, 0 ≤ p.2) := by
  have hsome : (st.counts.lookup k).isSome := by rw [hc]; rfl
  have hc0 : 0 ≤ c := hpos (k, c) (lookup_mem st.counts k c hc)
  refine ⟨{ st with counts := alSet st.counts k (c + 1) }, ?_, ?_, ?_, ?_, ?_⟩
  · simp [handle_api_failure_counts, hc]
  · exact lookup_alSet_self st.counts k (c + 1) hsome
  · intro p hp
    rcases mem_alSet st.counts k (c + 1) p hp with h | h
    · exact hpos p h
    · rw [h]; omega
  · intro p hp
    unfold mark_key_as_failed at hp
    rw [if_pos hsome] at hp
    rcases mem_alSet st.counts k st.maxFailures p hp with h | h
    · exact hpos p h
    · rw [h]; exact hM
  · intro p hp
    unfold reset_key_failure_count at hp
    rw [if_pos hsome] at hp
    rcases mem_alSet st.counts k 0 p hp with h | h
    · exact hpos p h
    · rw [h]

/-- C2 amended witness at a concrete registry. -/
theorem c2_amended_witness :
    ∃ st2, handle_api_failure_counts (kmInit ["A", "B"] 3 false 0 0) "A" = some st2
      ∧ st2.counts.lookup "A" = some (0 + 1)
      ∧ (∀ p ∈ st2.counts, 0 ≤ p.2)
      ∧ (∀ p ∈ (mark_key_as_failed (kmInit ["A", "B"] 3 false 0 0) "A").counts, 0 ≤ p.2)
      ∧ (∀ p ∈ (reset_key_failure_count (kmInit ["A", "B"] 3 false 0 0) "A").1.counts, 0 ≤ p.2) :=
  c2_amended (kmInit ["A", "B"] 3 false 0 0) "A" 0 (by decide) (by decide) (by decide)

/-! ## Claim C10 — behaviour on unknown keys -/

/-- C10: for a key `k` outside the configured key list, `is_key_valid`
raises `KeyError` (modelled `none`), `handle_api_failure` raises `KeyError`
before selecting any next key (`none`), `mark_key_as_failed` leaves the
whole registry state unchanged, and `reset_key_failure_count` returns
`false` without mutating state. -/
theorem c10_theorem (keys : List String) (M : Int) (k : String) (pe : Bool)
    (ps th : Nat) (retries maxRetries now : Nat) (model : Option String)
    (orc : EmergencyOracle) (hk : k ∉ keys) :
    is_key_valid (kmInit keys M pe ps th) k = none
    ∧ handle_api_failure (kmInit keys M pe ps th) k retries maxRetries model now orc = none
    ∧ mark_key_as_failed (kmInit keys M pe ps th) k = kmInit keys M pe ps th
    ∧ reset_key_failure_count (kmInit keys M pe ps th) k = (kmInit keys M pe ps th, false) := by
  have h0 : (kmInit keys M pe ps th).counts.lookup k = none := by
    show (keys.map (fun s => (s, (0 : Int)))).lookup k = none
    exact lookup_map_const_zero keys k hk
  refine ⟨?_, ?_, ?_, ?_⟩
  · simp [is_key_valid, h0]
  · simp [handle_api_failure, handle_api_failure_counts, h0]
  · simp [mark_key_as_failed, h0]
  · simp [reset_key_failure_count, h0]

/-- C10 witness: the key `"B"` is not among the configured keys `["A"]`. -/
theorem c10_witness :
    is_key_valid (kmInit ["A"] 3 false 0 0) "B" = none
    ∧ handle_api_failure (kmInit ["A"] 3 false 0 0) "B" 1 3 none 0 ⟨[]⟩ = none
    ∧ mark_key_as_failed (kmInit ["A"] 3 false 0 0) "B" = kmInit ["A"] 3 false 0 0
    ∧ reset_key_failure_count (kmInit ["A"] 3 false 0 0) "B" = (kmInit ["A"] 3 false 0 0, false) :=
  c10_theorem ["A"] 3 "B" false 0 0 1 3 0 none ⟨[]⟩ (by decide)

/-! ## Claim C4 — status-code regex vs. category flags -/

/-- C4 counterexample: for the error text
`"status code 503 and 429"` the regex parses code 503, but the assigned
category is `RATE_LIMIT` (the bare `"429"` flag is tested first when the
`error_type` is chosen), not `SERVICE_UNAVAILABLE` as the claim demands. -/
theorem c4_counterexample :
    findStatusCode "status code 503 and 429" = some 503
    ∧ error_type_of "status code 503 and 429" = ErrorType.RATE_LIMIT
    ∧ ErrorType.RATE_LIMIT ≠ ErrorType.SERVICE_UNAVAILABLE := by
  refine ⟨by decide, by decide, by decide⟩

/-- C4 (amended): the parsed `"status code <digits>"` value determines only
the logged `error_code`; the category is decided by the bare substring
flags, with `"429"` taking top priority.  In particular, whenever the text
contains `"429"` the category is `RATE_LIMIT`, even if the regex parsed a
different code `c` (which still becomes the `error_code`). -/
theorem c4_amended (s : String) (c : Nat) (h429 : is_429_error s = true)
    (hfind : findStatusCode s = some c) :
    error_type_of s = ErrorType.RATE_LIMIT ∧ extract_error_code s = some c := by
  constructor
  · simp [error_type_of, h429]
  · simp [extract_error_code, hfind]

/-- C4 amended witness. -/
theorem c4_amended_witness :
    error_type_of "retry later: status code 418 after 429 hits" = ErrorType.RATE_LIMIT
    ∧ extract_error_code "retry later: status code 418 after 429 hits" = some 418 :=
  c4_amended "retry later: status code 418 after 429 hits" 418 (by decide) (by decide)

/-! ## Claim C6 — empty key list at initialization -/

/-- C6 counterexample: with an empty configured key list the registry
initializes, but `get_next_working_key` hits `next(...)` on the empty key
cycle and raises `StopIteration` (outcome `stopIteration`); no key — empty
or otherwise — is returned, contradicting the claimed best-effort empty
key. -/
theorem c6_counterexample :
    (get_next_working_key (kmInit [] 3 true 50 2) none 0 ⟨[]⟩).1 = NKOutcome.stopIteration
    ∧ NKOutcome.returnedKey (get_next_working_key (kmInit [] 3 true 50 2) none 0 ⟨[]⟩).1 = none
    ∧ (get_next_working_key (kmInit [] 3 true 50 2) (some "gemini-x") 7 ⟨[]⟩).1
        = NKOutcome.stopIteration := by
  refine ⟨by decide, by decide, by decide⟩

/-- C6 (amended): initializing the registry with an empty key list succeeds
(the constructor is total and the valid key pool is simply not created),
but every subsequent `get_next_working_key` call — with or without a model —
raises `StopIteration` from `next(...)` on the empty key cycle instead of
returning a best-effort empty key; the registry state is left unchanged. -/
theorem c6_amended (M : Int) (model : Option String) (now : Nat)
    (orc : EmergencyOracle) (pe : Bool) (ps th : Nat) :
    get_next_working_key (kmInit [] M pe ps th) model now orc
      = (NKOutcome.stopIteration, kmInit [] M pe ps th) := by
  simp [get_next_working_key, kmInit, original_get_next_working_key, get_next_key]

/-! ## Field-preservation lemmas for next-key selection -/

theorem get_next_key_fields (st : KMState) (k : String) (st' : KMState)
    (h : get_next_key st = some (k, st')) :
    st'.counts = st.counts ∧ st'.modelStatus = st.modelStatus ∧ st'.pool = st.pool
      ∧ st'.apiKeys = st.apiKeys ∧ st'.maxFailures = st.maxFailures := by
  cases hk : st.apiKeys with
  | nil => unfold get_next_key at h; rw [hk] at h; simp at h
  | cons a t =>
    unfold get_next_key at h
    rw [hk] at h
    simp only [Option.some.injEq, Prod.mk.injEq] at h
    rw [← h.2]
    exact ⟨rfl, rfl, rfl, rfl, rfl⟩

theorem orig_advance_fields (model : Option String) (now : Nat) (initial : String)
    (n : Nat) (st : KMState) (k : String) (st' : KMState)
    (ih : ∀ (st : KMState) (cur k : String) (st' : KMState),
      orig_loop model now initial n st cur = some (k, st') →
      st'.counts = st.counts ∧ st'.modelStatus = st.modelStatus ∧ st'.pool = st.pool)
    (h : (get_next_key st).bind
        (fun p => orig_loop model now initial n p.2 p.1) = some (k, st')) :
    st'.counts = st.counts ∧ st'.modelStatus = st.modelStatus ∧ st'.pool = st.pool := by
  cases hg : get_next_key st with
  | none => rw [hg] at h; simp at h
  | some r =>
    rw [hg] at h
    obtain ⟨k1, st1⟩ := r
    simp only [Option.some_bind] at h
    have hf := get_next_key_fields st k1 st1 hg
    have hr := ih st1 k1 k st' h
    exact ⟨hr.1.trans hf.1, hr.2.1.trans hf.2.1, hr.2.2.trans hf.2.2.1⟩

theorem orig_loop_fields (model : Option String) (now : Nat) (initial : String) :
    ∀ (fuel : Nat) (st : KMState) (cur k : String) (st' : KMState),
      orig_loop model now initial fuel st cur = some (k, st') →
      st'.counts = st.counts ∧ st'.modelStatus = st.modelStatus ∧ st'.pool = st.pool := by
  intro fuel
  induction fuel with
  | zero =>
    intro st cur k st' h
    unfold orig_loop at h
    simp only [Option.some.injEq, Prod.mk.injEq] at h
    rw [← h.2]
    exact ⟨rfl, rfl, rfl⟩
  | succ n ih =>
    intro st cur k st' h
    unfold orig_loop at h
    cases hv : is_key_valid st cur with
    | none => rw [hv] at h; simp at h
    | some valid =>
      rw [hv] at h
      simp only [Option.some_bind] at h
      cases valid with
      | false =>
        rw [Bool.not_false] at h
        rw [if_pos rfl] at h
        exact orig_advance_fields model now initial n st k st' ih h
      | true =>
        rw [Bool.not_true] at h
        rw [if_neg (by simp)] at h
        unfold orig_check at h
        cases model with
        | none =>
          simp only [Option.some.injEq, Prod.mk.injEq] at h
          rw [← h.2]
          exact ⟨rfl, rfl, rfl⟩
        | some m =>
          simp only [] at h
          cases hl : (st.modelStatus.lookup cur).bind (fun inner => inner.lookup m) with
          | none =>
            rw [hl] at h
            simp only [Option.some.injEq, Prod.mk.injEq] at h
            rw [← h.2]
            exact ⟨rfl, rfl, rfl⟩
          | some expiry =>
            rw [hl] at h
            simp only [] at h
            by_cases hne : now < expiry
            · rw [if_pos hne] at h
              exact orig_advance_fields (some m) now initial n st k st' ih h
            · rw [if_neg hne] at h
              simp only [Option.some.injEq, Prod.mk.injEq] at h
              rw [← h.2]
              exact ⟨rfl, rfl, rfl⟩

theorem original_gnwk_fields (st : KMState) (model : Option String) (now : Nat)
    (k : String) (st' : KMState)
    (h : original_get_next_working_key st model now = some (k, st')) :
    st'.counts = st.counts ∧ st'.modelStatus = st.modelStatus ∧ st'.pool = st.pool := by
  unfold original_get_next_working_key at h
  cases hg : get_next_key st with
  | none => rw [hg] at h; simp at h
  | some r =>
    rw [hg] at h
    obtain ⟨k1, st1⟩ := r
    have hf := get_next_key_fields st k1 st1 hg
    have hr := orig_loop_fields model now k1 (st.apiKeys.length + 1) st1 k1 k st' h
    exact ⟨hr.1.trans hf.1, hr.2.1.trans hf.2.1, hr.2.2.trans hf.2.2.1⟩

theorem gnwk_fields (st : KMState) (model : Option String) (now : Nat)
    (orc : EmergencyOracle) :
    (get_next_working_key st model now orc).2.counts = st.counts
    ∧ (get_next_working_key st model now orc).2.modelStatus = st.modelStatus := by
  cases hp : st.pool with
  | none =>
    cases ho : original_get_next_working_key st model now with
    | none => simp [get_next_working_key, hp, ho]
    | some r =>
      obtain ⟨k0, st1⟩ := r
      have hf := original_gnwk_fields st model now k0 st1 ho
      simp only [get_next_working_key, hp, ho]
      exact ⟨hf.1, hf.2.1⟩
  | some p =>
    cases hs : get_valid_key_step p now with
    | hit k p' => simp [get_next_working_key, hp, hs]
    | miss p' =>
      by_cases ha : (st.apiKeys.filter (fun k => is_key_valid st k == some true)).isEmpty
      · simp [get_next_working_key, hp, hs, ha]
      · cases hi : (emergency_insert_loop p'.poolSize p'.ttlHours now orc.results p'.queue none).2 with
        | none => simp [get_next_working_key, hp, hs, ha, hi]
        | some k => simp [get_next_working_key, hp, hs, ha, hi]

/-! ## Claim C3 — retryable errors and the Retry Handler -/

/-- C3 counterexample: the Retry Handler's own error branch (it does not
call `handle_api_error_and_get_next_key`) routes the ServiceUnavailable
error text `"status code 503"` through `handle_api_failure`, so the failure
counter of the observed key `"A"` moves from 0 to 1 — a registry mutation
the claim rules out. -/
theorem c3_counterexample :
    (kmInit ["A", "B"] 3 false 0 0).counts.lookup "A" = some 0
    ∧ (retry_handler_error_step (kmInit ["A", "B"] 3 false 0 0) "status code 503" "A"
        (some "m") 1 3 0 0 ⟨[]⟩).map (fun r => r.state.counts.lookup "A")
      = some (some 1) := by
  refine ⟨by decide, by decide⟩

/-- C3 (amended): when an error whose text matches only the
ServiceUnavailable (503) or Timeout (408) substrings is handled by
`handle_api_error_and_get_next_key`, no registry mutation happens — the
failure counters and the cooldown table are unchanged and only the next
working key is selected; the Retry Handler's wrapper, however, does not
special-case such errors: anything that is not 429-with-model and not 403
goes through `handle_api_failure`, which increments the observed key's
failure counter. -/
theorem c3_amended (st : KMState) (s oldKey : String) (model : Option String)
    (retries maxRetries now resetHour : Nat) (orc : EmergencyOracle) (c : Int)
    (hretry : is_service_unavailable s = true ∨ is_timeout_error s = true)
    (h429 : is_429_error s = false) (hauth : is_auth_error s = false)
    (hclient : is_client_error s = false) (hserver : is_server_error s = false)
    (hc : st.counts.lookup oldKey = some c) :
    (∃ r, handle_api_error_and_get_next_key st s oldKey model retries maxRetries
          now resetHour orc = some r
        ∧ r.state.counts = st.counts ∧ r.state.modelStatus = st.modelStatus)
    ∧ (∃ r, retry_handler_error_step st s oldKey model retries maxRetries
          now resetHour orc = some r
        ∧ r.state.counts.lookup oldKey = some (c + 1)) := by
  have hsome : (st.counts.lookup oldKey).isSome := by rw [hc]; rfl
  have hsvc : (is_service_unavailable s || is_timeout_error s) = true := by
    rcases hretry with h | h
    · rw [h]; rfl
    · rw [h]; exact Bool.or_true _
  have hfatal : (is_auth_error s || is_client_error s || is_server_error s) = false := by
    rw [hauth, hclient, hserver]; rfl
  constructor
  · refine ⟨.nextKey (get_next_working_key st model now orc).1
      (get_next_working_key st model now orc).2, ?_, ?_, ?_⟩
    · unfold handle_api_error_and_get_next_key
      rw [h429, if_neg (by simp), hfatal]
      rw [if_neg (by simp), hsvc, if_pos rfl]
    · exact (gnwk_fields st model now orc).1
    · exact (gnwk_fields st model now orc).2
  · have h403 : strHasSub s "403" = false := by
      have h2 : (strHasSub s "401" || strHasSub s "403") = false := hauth
      exact (Bool.or_eq_false_iff.mp h2).2
    have h429m : (is_429_error s && model.isSome) = false := by rw [h429]; rfl
    have hcounts : handle_api_failure_counts st oldKey
        = some { st with counts := alSet st.counts oldKey (c + 1) } := by
      simp [handle_api_failure_counts, hc]
    have hlook : (alSet st.counts oldKey (c + 1)).lookup oldKey = some (c + 1) :=
      lookup_alSet_self st.counts oldKey (c + 1) hsome
    by_cases hrm : retries < maxRetries
    · refine ⟨.nextKey
        (get_next_working_key { st with counts := alSet st.counts oldKey (c + 1) } model now orc).1
        (get_next_working_key { st with counts := alSet st.counts oldKey (c + 1) } model now orc).2,
        ?_, ?_⟩
      · unfold retry_handler_error_step
        rw [h429m, if_neg (by simp), h403, if_neg (by simp)]
        unfold handle_api_failure
        rw [hcounts]
        simp only [Option.map_some']
        rw [if_pos hrm]
      · show (get_next_working_key { st with counts := alSet st.counts oldKey (c + 1) }
            model now orc).2.counts.lookup oldKey = some (c + 1)
        rw [(gnwk_fields { st with counts := alSet st.counts oldKey (c + 1) } model now orc).1]
        exact hlook
    · refine ⟨.emptyKey { st with counts := alSet st.counts oldKey (c + 1) }, ?_, ?_⟩
      · unfold retry_handler_error_step
        rw [h429m, if_neg (by simp), h403, if_neg (by simp)]
        unfold handle_api_failure
        rw [hcounts]
        simp only [Option.map_some']
        rw [if_neg hrm]
      · exact hlook

/-- C3 amended witness at a concrete registry and the error text
`"status code 503"`. -/
theorem c3_amended_witness :
    (∃ r, handle_api_error_and_get_next_key (kmInit ["A", "B"] 3 false 0 0)
          "status code 503" "A" (some "m") 1 3 0 0 ⟨[]⟩ = some r
        ∧ r.state.counts = (kmInit ["A", "B"] 3 false 0 0).counts
        ∧ r.state.modelStatus = (kmInit ["A", "B"] 3 false 0 0).modelStatus)
    ∧ (∃ r, retry_handler_error_step (kmInit ["A", "B"] 3 false 0 0)
          "status code 503" "A" (some "m") 1 3 0 0 ⟨[]⟩ = some r
        ∧ r.state.counts.lookup "A" = some (0 + 1)) :=
  c3_amended (kmInit ["A", "B"] 3 false 0 0) "status code 503" "A" (some "m")
    1 3 0 0 ⟨[]⟩ 0 (Or.inl (by decide)) (by decide) (by decide) (by decide)
    (by decide) (by decide)

/-! ## Claim C5 — 429 classification and the returned key -/

theorem next_reset_time_gt (now resetHour : Nat) : now < next_reset_time now resetHour := by
  have hd := Nat.div_add_mod now 86400
  have hm : now % 86400 < 86400 := Nat.mod_lt _ (by norm_num)
  show now < (if now / 86400 * 86400 + resetHour * 3600 ≤ now then
      now / 86400 * 86400 + resetHour * 3600 + 86400
    else now / 86400 * 86400 + resetHour * 3600)
  by_cases h : now / 86400 * 86400 + resetHour * 3600 ≤ now
  · rw [if_pos h]; omega
  · rw [if_neg h]; omega

theorem gnwk_pool_hit (st : KMState) (model : Option String) (now : Nat)
    (orc : EmergencyOracle) (p p' : PoolState) (k' : String)
    (hp : st.pool = some p) (hhit : get_valid_key_step p now = .hit k' p') :
    get_next_working_key st model now orc = (.poolHit k', { st with pool := some p' }) := by
  simp only [get_next_working_key, hp, hhit]

/-- C5 counterexample: the registry holds keys `["A", "B"]` and the pool one
live entry for `"A"`.  Classifying `"status code 429"` observed on `"A"`
with model `"gemini-x"` at time 0 sets the cooldown (until 86400, which is
live at time 0) and leaves `failCount["A"] = 0`, but the key returned for
the next attempt is `"A"` itself, popped from the pool with no
model-availability check — contradicting "never the just-cooled key". -/
theorem c5_counterexample :
    (handle_api_error_and_get_next_key c5State "status code 429" "A"
        (some "gemini-x") 1 3 0 0 ⟨[]⟩).map
        (fun r => (r.key, r.state.counts.lookup "A",
          ((r.state.modelStatus.lookup "A").getD []).lookup "gemini-x"))
      = some (some "A", some 0, some 86400)
    ∧ (0 : Nat) < 86400 := by
  refine ⟨by decide, by decide⟩

/-- C5 (amended): classifying a 429 error on key `k` with model `m` stores
`next_reset_time` under `cooldown[k][m]` (always a future instant) and
leaves all failure counters unchanged, and the next key is selected via
`get_next_working_key(model := m)`; however, when the valid key pool serves
that selection, the popped key is returned with no model-availability
check, so it can be any pooled key — including the just-cooled `k`
itself (see the counterexample). -/
theorem c5_amended (st : KMState) (errStr k m : String)
    (retries maxRetries now resetHour : Nat) (orc : EmergencyOracle)
    (p p' : PoolState) (k' : String)
    (h429 : is_429_error errStr = true)
    (hp : st.pool = some p)
    (hhit : get_valid_key_step p now = .hit k' p') :
    ∃ st2, handle_api_error_and_get_next_key st errStr k (some m) retries
        maxRetries now resetHour orc = some (.nextKey (.poolHit k') st2)
      ∧ st2.counts = st.counts
      ∧ ((st2.modelStatus.lookup k).getD []).lookup m = some (next_reset_time now resetHour)
      ∧ now < next_reset_time now resetHour := by
  have hp1 : (mark_key_model_as_cooling st k m now resetHour).pool = some p := hp
  have hgn := gnwk_pool_hit (mark_key_model_as_cooling st k m now resetHour)
    (some m) now orc p p' k' hp1 hhit
  refine ⟨{ mark_key_model_as_cooling st k m now resetHour with pool := some p' },
    ?_, rfl, ?_, next_reset_time_gt now resetHour⟩
  · unfold handle_api_error_and_get_next_key
    rw [h429, if_pos rfl]
    show some (ApiFailureResult.nextKey
        (get_next_working_key (mark_key_model_as_cooling st k m now resetHour) (some m) now orc).1
        (get_next_working_key (mark_key_model_as_cooling st k m now resetHour) (some m) now orc).2)
      = some (.nextKey (.poolHit k')
        { mark_key_model_as_cooling st k m now resetHour with pool := some p' })
    rw [hgn]
  · show ((((alInsert st.modelStatus k
        (alInsert ((st.modelStatus.lookup k).getD []) m
          (next_reset_time now resetHour)))).lookup k).getD []).lookup m
      = some (next_reset_time now resetHour)
    rw [lookup_alInsert_self]
    simp only [Option.getD_some]
    rw [lookup_alInsert_self]

/-- C5 amended witness on the concrete C5 state. -/
theorem c5_amended_witness :
    ∃ st2, handle_api_error_and_get_next_key c5State "status code 429" "A"
        (some "gemini-x") 1 3 0 0 ⟨[]⟩ = some (.nextKey (.poolHit "A") st2)
      ∧ st2.counts = c5State.counts
      ∧ ((st2.modelStatus.lookup "A").getD []).lookup "gemini-x" = some (next_reset_time 0 0)
      ∧ 0 < next_reset_time 0 0 :=
  c5_amended c5State "status code 429" "A" "gemini-x" 1 3 0 0 ⟨[]⟩
    c5Pool c5PoolAfter "A" (by decide) (by decide) (by decide)

/-! ## Claim C1 — pool size bound and key uniqueness -/

theorem emergency_async_insert_len (poolSize ttl now : Nat) :
    ∀ (rs : List (Option String)) (q : List ValidKeyWithTTL),
      q.length ≤ poolSize →
      (emergency_refill_async_insert poolSize ttl now rs q).length ≤ poolSize := by
  intro rs
  induction rs with
  | nil => intro q hq; exact hq
  | cons r rs ih =>
    intro q hq
    cases r with
    | none => exact ih q hq
    | some k =>
      simp only [emergency_refill_async_insert]
      by_cases h : poolSize ≤ q.length
      · rw [if_pos h]; exact hq
      · rw [if_neg h]; exact ih _ (dequeAppend_length_le _ _ _)

theorem emergency_insert_loop_len (poolSize ttl now : Nat) :
    ∀ (rs : List (Option String)) (q : List ValidKeyWithTTL) (fv : Option String),
      q.length ≤ poolSize →
      (emergency_insert_loop poolSize ttl now rs q fv).1.length ≤ poolSize := by
  intro rs
  induction rs with
  | nil => intro q fv hq; exact hq
  | cons r rs ih =>
    intro q fv hq
    cases r with
    | none => exact ih q fv hq
    | some k =>
      simp only [emergency_insert_loop]
      by_cases h : poolSize ≤ q.length
      · rw [if_pos h]; exact hq
      · rw [if_neg h]; exact ih _ _ (dequeAppend_length_le _ _ _)

theorem emergency_insert_loop_nodup (poolSize ttl now : Nat) :
    ∀ (rs : List (Option String)) (q : List ValidKeyWithTTL) (fv : Option String),
      ((q.map ValidKeyWithTTL.key) ++ rs.filterMap id).Nodup →
      ((emergency_insert_loop poolSize ttl now rs q fv).1.map ValidKeyWithTTL.key).Nodup := by
  intro rs
  induction rs with
  | nil =>
    intro q fv h
    simp only [List.filterMap_nil, List.append_nil] at h
    exact h
  | cons r rs ih =>
    intro q fv h
    cases r with
    | none =>
      simp only [List.filterMap_cons] at h
      exact ih q fv h
    | some k =>
      simp only [List.filterMap_cons] at h
      simp only [emergency_insert_loop]
      by_cases hf : poolSize ≤ q.length
      · rw [if_pos hf]
        exact h.of_append_left
      · rw [if_neg hf]
        apply ih
        rw [dequeAppend_not_full _ _ _ (by omega)]
        have hk : (mkValidKey k ttl now).key = k := rfl
        simp only [List.map_append, List.map_cons, List.map_nil, hk]
        rw [List.append_assoc]
        simpa using h

/-- C1 counterexample: with the pool already holding a live entry for key
`"A"` (pool size 10, far from full), `emergency_refill_async` successfully
re-verifies `"A"` and appends it again — afterwards the queue holds two
entries with the same key string, violating the no-duplicates conjunct. -/
theorem c1_counterexample :
    ((emergency_refill_async_insert 10 2 0 [some "A"] [mkValidKey "A" 2 0]).map
        ValidKeyWithTTL.key) = ["A", "A"]
    ∧ ¬ ((emergency_refill_async_insert 10 2 0 [some "A"] [mkValidKey "A" 2 0]).map
        ValidKeyWithTTL.key).Nodup := by
  refine ⟨by decide, by decide⟩

/-- C1 (amended): the capacity bound `len(queue) ≤ poolSize` is indeed
preserved by both emergency insertion loops (the deque is bounded and every
append re-checks the size), and `emergency_refill` — which the code only
reaches with an emptied queue — preserves no-duplicates because the keys it
inserts are sampled without replacement; but `emergency_refill_async` never
checks pool membership before appending, so the no-duplicates conjunct
fails on a pool that already holds one of the sampled keys (see the
counterexample). -/
theorem c1_amended (poolSize ttl now : Nat) (rs : List (Option String))
    (q : List ValidKeyWithTTL) (fv : Option String) (hq : q.length ≤ poolSize) :
    (emergency_refill_async_insert poolSize ttl now rs q).length ≤ poolSize
    ∧ (emergency_insert_loop poolSize ttl now rs q fv).1.length ≤ poolSize
    ∧ ((rs.filterMap id).Nodup →
        ((emergency_insert_loop poolSize ttl now rs [] none).1.map
          ValidKeyWithTTL.key).Nodup) := by
  refine ⟨emergency_async_insert_len poolSize ttl now rs q hq,
    emergency_insert_loop_len poolSize ttl now rs q fv hq, ?_⟩
  intro hnd
  apply emergency_insert_loop_nodup
  simpa using hnd

/-- C1 amended witness: three verification outcomes (one failure between
two distinct successes) inserted into an empty pool of capacity 2. -/
theorem c1_amended_witness :
    (emergency_refill_async_insert 2 1 5 [some "A", none, some "B"]
        [mkValidKey "C" 1 0]).length ≤ 2
    ∧ (emergency_insert_loop 2 1 5 [some "A", none, some "B"]
        [mkValidKey "C" 1 0] none).1.length ≤ 2
    ∧ (([some "A", none, some "B"].filterMap id).Nodup →
        ((emergency_insert_loop 2 1 5 [some "A", none, some "B"] [] none).1.map
          ValidKeyWithTTL.key).Nodup) :=
  c1_amended 2 1 5 [some "A", none, some "B"] [mkValidKey "C" 1 0] none (by decide)

/-! ## Claim C7 — pool hits never return expired entries -/

theorem remove_expired_spec (now : Nat) :
    ∀ q : List ValidKeyWithTTL, remove_expired_keys now q
      = (q.filter (fun e => !is_expired now e),
         (q.filter (fun e => is_expired now e)).length) := by
  intro q
  induction q with
  | nil => rfl
  | cons e q ih =>
    cases he : is_expired now e with
    | true => simp [remove_expired_keys, ih, he, List.filter_cons]
    | false => simp [remove_expired_keys, ih, he, List.filter_cons]

theorem pop_valid_all_live (now : Nat) (q : List ValidKeyWithTTL)
    (h : ∀ e ∈ q, is_expired now e = false) :
    pop_valid_loop now q = (q.head?, q.tail, 0) := by
  cases q with
  | nil => rfl
  | cons e t =>
    have he := h e (List.mem_cons_self e t)
    simp [pop_valid_loop, he]

/-- C7: whenever the deterministic core of `get_valid_key` answers with a
pool hit, the returned key belongs to a queue entry whose `expires_at` has
not passed at the instant of the check, and every expired entry encountered
is counted into `expired_keys_removed` (never returned). -/
theorem c7_theorem (p : PoolState) (now : Nat) (k : String) (p' : PoolState)
    (h : get_valid_key_step p now = .hit k p') :
    (∃ e ∈ p.queue, e.key = k ∧ is_expired now e = false)
    ∧ p'.expiredRemoved = p.expiredRemoved
        + (p.queue.filter (fun e => is_expired now e)).length := by
  simp only [get_valid_key_step] at h
  rw [remove_expired_spec now p.queue] at h
  have hlive : ∀ e ∈ p.queue.filter (fun e => !is_expired now e),
      is_expired now e = false := by
    intro e he
    have h2 := (List.mem_filter.mp he).2
    cases hb : is_expired now e with
    | false => rfl
    | true => rw [hb] at h2; simp at h2
  rw [pop_valid_all_live now _ hlive] at h
  cases hq : p.queue.filter (fun e => !is_expired now e) with
  | nil =>
    rw [hq] at h
    simp at h
  | cons e rest =>
    rw [hq] at h
    simp only [List.head?, List.tail] at h
    simp only [PoolStepResult.hit.injEq] at h
    have hmem : e ∈ p.queue.filter (fun e => !is_expired now e) := by
      rw [hq]; exact List.mem_cons_self e rest
    refine ⟨⟨e, (List.mem_filter.mp hmem).1, h.1, hlive e hmem⟩, ?_⟩
    rw [← h.2]
    simp

/-- C7 witness: at time 10000, the pool `c7Pool` (expired `"X"` at the
head, live `"Y"` behind it) answers the hit `"Y"` and counts one
eviction. -/
theorem c7_witness :
    (∃ e ∈ c7Pool.queue, e.key = "Y" ∧ is_expired 10000 e = false)
    ∧ c7After.expiredRemoved = c7Pool.expiredRemoved
        + (c7Pool.queue.filter (fun e => is_expired 10000 e)).length :=
  c7_theorem c7Pool 10000 "Y" c7After (by decide)

/-! ## Claim C8 — bounded retries, last exception re-raised -/

theorem retry_go_succ (f : Nat → String → Except E V)
    (classify : Nat → String → E → Option String) (n i : Nat) (key : String)
    (last : Option E) :
    retry_go f classify (n + 1) i key last
      = match f i key with
        | .ok v => (.ok v, 1)
        | .error e =>
          match classify i key e with
          | none => (.raised e, 1)
          | some k' => ((retry_go f classify n (i + 1) k' (some e)).1,
                        (retry_go f classify n (i + 1) k' (some e)).2 + 1) := by
  rfl

theorem retry_go_calls_le (f : Nat → String → Except E V)
    (classify : Nat → String → E → Option String) :
    ∀ (fuel i : Nat) (key : String) (last : Option E),
      (retry_go f classify fuel i key last).2 ≤ fuel := by
  intro fuel
  induction fuel with
  | zero => intro i key last; simp [retry_go]
  | succ n ih =>
    intro i key last
    rw [retry_go_succ]
    cases hfk : f i key with
    | ok v => simp
    | error e =>
      cases hcl : classify i key e with
      | none => simp [hcl]
      | some k' =>
        simp only [hcl]
        show (retry_go f classify n (i + 1) k' (some e)).2 + 1 ≤ n + 1
        have := ih (i + 1) k' (some e)
        omega

theorem retry_go_fail (f : Nat → String → Except E V)
    (classify : Nat → String → E → Option String)
    (hfail : ∀ i k v, f i k ≠ Except.ok v) :
    ∀ (fuel i : Nat) (key : String) (last : Option E), 1 ≤ fuel →
      ∃ j keyj e, f j keyj = Except.error e
        ∧ retry_go f classify fuel i key last = (.raised e, j + 1 - i)
        ∧ i ≤ j := by
  intro fuel
  induction fuel with
  | zero => intro i key last hf; omega
  | succ n ih =>
    intro i key last _
    cases hfk : f i key with
    | ok v => exact absurd hfk (hfail i key v)
    | error e =>
      cases hcl : classify i key e with
      | none =>
        refine ⟨i, key, e, hfk, ?_, le_refl i⟩
        rw [retry_go_succ]
        simp only [hfk, hcl]
        have h1 : i + 1 - i = 1 := by omega
        rw [h1]
      | some k' =>
        cases n with
        | zero =>
          refine ⟨i, key, e, hfk, ?_, le_refl i⟩
          rw [retry_go_succ]
          simp only [hfk, hcl, retry_go]
          have h1 : i + 1 - i = 1 := by omega
          rw [h1]
        | succ n2 =>
          obtain ⟨j, keyj, e', h1, h2, h3⟩ := ih (i + 1) k' (some e) (by omega)
          refine ⟨j, keyj, e', h1, ?_, by omega⟩
          rw [retry_go_succ]
          simp only [hfk, hcl, h2]
          have h4 : j + 1 - (i + 1) + 1 = j + 1 - i := by omega
          rw [h4]

/-- C8: the Retry Handler wrapper invokes the wrapped call at most
`MAX_RETRIES` times, and when no attempt succeeds (including early exits on
an empty substitute key) the result is re-raising exactly the exception
produced by the last attempt made: attempt index `j`, with `j + 1` calls
made in total.  It never swallows the failure or returns a default. -/
theorem c8_theorem (maxRetries : Nat) (f : Nat → String → Except E V)
    (classify : Nat → String → E → Option String) (key0 : String)
    (hmax : 1 ≤ maxRetries) (hfail : ∀ i k v, f i k ≠ Except.ok v) :
    (retry_handler_call maxRetries f classify key0).2 ≤ maxRetries
    ∧ ∃ j keyj e, f j keyj = Except.error e
        ∧ retry_handler_call maxRetries f classify key0 = (.raised e, j + 1) := by
  constructor
  · exact retry_go_calls_le f classify maxRetries 0 key0 none
  · obtain ⟨j, keyj, e, h1, h2, _⟩ :=
      retry_go_fail f classify hfail maxRetries 0 key0 none hmax
    exact ⟨j, keyj, e, h1, h2⟩

/-- C8 witness: three allowed attempts, every attempt fails with `"boom"`,
the classifier always substitutes the key `"key-2"`. -/
theorem c8_witness :
    (retry_handler_call 3 alwaysFailF alwaysSwitchClassify "key-1").2 ≤ 3
    ∧ ∃ j keyj e, alwaysFailF j keyj = Except.error e
        ∧ retry_handler_call 3 alwaysFailF alwaysSwitchClassify "key-1"
          = (.raised e, j + 1) :=
  c8_theorem 3 alwaysFailF alwaysSwitchClassify "key-1" (by decide)
    (fun i k v h => by simp [alwaysFailF] at h)

/-! ## Claim C9 — staggered verification batches -/

theorem total_batches_zero (B : Nat) (hB : 0 < B) : total_batches 0 B = 0 := by
  unfold total_batches
  rw [Nat.zero_add]
  exact Nat.div_eq_of_lt (by omega)

theorem total_batches_succ (n B : Nat) (hn : 0 < n) (hB : 0 < B) :
    total_batches n B = (n - 1) / B + 1 := by
  unfold total_batches
  have h1 : n + B - 1 = (n - 1) + B := by omega
  rw [h1, Nat.add_div_right _ hB]

theorem total_batches_sub (n B : Nat) (hn : 0 < n) (hB : 0 < B) :
    total_batches (n - B) B = (n - 1) / B := by
  by_cases h : n ≤ B
  · have h0 : n - B = 0 := by omega
    rw [h0, total_batches_zero B hB]
    symm
    exact Nat.div_eq_of_lt (by omega)
  · have h2 : 0 < n - B := by omega
    rw [total_batches_succ _ _ h2 hB]
    have h3 : n - B - 1 = n - 1 - B := by omega
    rw [h3]
    rw [← Nat.div_eq_sub_div hB (by omega)]

theorem verification_batch_succ (keys : List String) (B i : Nat) :
    verification_batch keys B (i + 1) = verification_batch (keys.drop B) B i := by
  show (keys.drop ((i + 1) * B)).take B = ((keys.drop B).drop (i * B)).take B
  rw [List.drop_drop]
  congr 2
  ring

theorem batches_join (B : Nat) (hB : 0 < B) :
    ∀ (n : Nat) (keys : List String), keys.length = n →
      ((List.range (total_batches keys.length B)).map
        (fun i => verification_batch keys B i)).flatten = keys := by
  intro n
  induction n using Nat.strong_induction_on with
  | _ n ih =>
    intro keys hlen
    cases keys with
    | nil => simp [total_batches_zero B hB]
    | cons a t =>
      have hpos : 0 < (a :: t).length := by simp
      have hT : total_batches (a :: t).length B
          = total_batches ((a :: t).drop B).length B + 1 := by
        rw [List.length_drop, total_batches_succ _ _ hpos hB,
          total_batches_sub _ _ hpos hB]
      rw [hT, List.range_succ_eq_map, List.map_cons, List.map_map, List.flatten_cons]
      have hfun : ((List.range (total_batches ((a :: t).drop B).length B)).map
            ((fun i => verification_batch (a :: t) B i) ∘ Nat.succ))
          = (List.range (total_batches ((a :: t).drop B).length B)).map
            (fun i => verification_batch ((a :: t).drop B) B i) := by
        apply List.map_congr_left
        intro j _
        exact verification_batch_succ (a :: t) B j
      rw [hfun]
      have hdrop : ((a :: t).drop B).length = (a :: t).length - B := List.length_drop B _
      have hrec := ih ((a :: t).length - B)
        (by omega) ((a :: t).drop B) hdrop
      rw [hrec]
      have hb0 : verification_batch (a :: t) B 0 = (a :: t).take B := by
        show ((a :: t).drop (0 * B)).take B = (a :: t).take B
        rw [Nat.zero_mul]
        rfl
      rw [hb0]
      exact List.take_append_drop B (a :: t)

/-- C9: for a non-empty candidate list and a positive batch size, the
scheduled verifier's batches are exactly `⌈n/B⌉` many (characterized by
`n ≤ B·T < n + B`), they concatenate back to the full key list, every
non-final batch has length exactly `B` and the final batch is non-empty and
at most `B` long; the inter-batch sleep equals `interval_seconds` divided
(Nat floor division, as in Python `//`) by the number of batches when there
is more than one batch, is zero for a single batch, and no sleep follows
the final batch. -/
theorem c9_theorem (keys : List String) (B I i : Nat)
    (hn : keys ≠ []) (hB : 0 < B) :
    ((List.range (total_batches keys.length B)).map
        (fun j => verification_batch keys B j)).flatten = keys
    ∧ keys.length ≤ B * total_batches keys.length B
    ∧ B * total_batches keys.length B < keys.length + B
    ∧ (i + 1 < total_batches keys.length B → (verification_batch keys B i).length = B)
    ∧ 0 < (verification_batch keys B (total_batches keys.length B - 1)).length
    ∧ (verification_batch keys B (total_batches keys.length B - 1)).length ≤ B
    ∧ (1 < total_batches keys.length B →
        batch_interval (I * 3600) (total_batches keys.length B)
          = I * 3600 / total_batches keys.length B)
    ∧ (total_batches keys.length B = 1 →
        batch_interval (I * 3600) (total_batches keys.length B) = 0)
    ∧ sleep_after_batch (total_batches keys.length B - 1)
        (total_batches keys.length B) (I * 3600) = false := by
  have hpos : 0 < keys.length := List.length_pos.mpr hn
  have hT : total_batches keys.length B = (keys.length - 1) / B + 1 :=
    total_batches_succ _ _ hpos hB
  refine ⟨batches_join B hB keys.length keys rfl, ?_, ?_, ?_, ?_, ?_, ?_, ?_, ?_⟩
  · rw [hT, Nat.mul_comm]
    have hdm := Nat.div_add_mod (keys.length - 1) B
    have hmod : (keys.length - 1) % B < B := Nat.mod_lt _ hB
    have h3 : ((keys.length - 1) / B + 1) * B = (keys.length - 1) / B * B + B :=
      Nat.succ_mul _ _
    have h4 : B * ((keys.length - 1) / B) = (keys.length - 1) / B * B :=
      Nat.mul_comm _ _
    omega
  · rw [hT, Nat.mul_comm]
    have h2 := Nat.div_mul_le_self (keys.length - 1) B
    have h3 : ((keys.length - 1) / B + 1) * B = (keys.length - 1) / B * B + B := by
      rw [Nat.succ_mul]
    omega
  · intro hi
    rw [hT] at hi
    have h4 : i + 1 ≤ (keys.length - 1) / B := by omega
    have h5 : (i + 1) * B ≤ (keys.length - 1) / B * B := Nat.mul_le_mul_right B h4
    have h6 : (keys.length - 1) / B * B ≤ keys.length - 1 := Nat.div_mul_le_self _ _
    have h7 : i * B + B ≤ keys.length - 1 := by rw [Nat.succ_mul] at h5; omega
    show ((keys.drop (i * B)).take B).length = B
    rw [List.length_take, List.length_drop]
    omega
  · rw [hT]
    simp only [Nat.add_sub_cancel]
    have h6 : (keys.length - 1) / B * B ≤ keys.length - 1 := Nat.div_mul_le_self _ _
    show 0 < ((keys.drop ((keys.length - 1) / B * B)).take B).length
    rw [List.length_take, List.length_drop]
    omega
  · rw [hT]
    simp only [Nat.add_sub_cancel]
    show ((keys.drop ((keys.length - 1) / B * B)).take B).length ≤ B
    rw [List.length_take]
    omega
  · intro h7
    unfold batch_interval
    rw [if_pos h7]
  · intro h7
    rw [h7]
    unfold batch_interval
    rw [if_neg (by omega)]
  · unfold sleep_after_batch
    simp

/-- C9 witness: five keys in batches of two across a 4-hour interval give
three batches ("aa", "bb" | "cc", "dd" | "ee") and an inter-batch sleep of
`14400 / 3 = 4800` seconds. -/
theorem c9_witness :
    ((List.range (total_batches (["aa", "bb", "cc", "dd", "ee"] : List String).length 2)).map
        (fun j => verification_batch ["aa", "bb", "cc", "dd", "ee"] 2 j)).flatten
      = ["aa", "bb", "cc", "dd", "ee"]
    ∧ (["aa", "bb", "cc", "dd", "ee"] : List String).length
        ≤ 2 * total_batches (["aa", "bb", "cc", "dd", "ee"] : List String).length 2
    ∧ 2 * total_batches (["aa", "bb", "cc", "dd", "ee"] : List String).length 2
        < (["aa", "bb", "cc", "dd", "ee"] : List String).length + 2
    ∧ (0 + 1 < total_batches (["aa", "bb", "cc", "dd", "ee"] : List String).length 2 →
        (verification_batch ["aa", "bb", "cc", "dd", "ee"] 2 0).length = 2)
    ∧ 0 < (verification_batch ["aa", "bb", "cc", "dd", "ee"] 2
        (total_batches (["aa", "bb", "cc", "dd", "ee"] : List String).length 2 - 1)).length
    ∧ (verification_batch ["aa", "bb", "cc", "dd", "ee"] 2
        (total_batches (["aa", "bb", "cc", "dd", "ee"] : List String).length 2 - 1)).length ≤ 2
    ∧ (1 < total_batches (["aa", "bb", "cc", "dd", "ee"] : List String).length 2 →
        batch_interval (4 * 3600) (total_batches (["aa", "bb", "cc", "dd", "ee"] : List String).length 2)
          = 4 * 3600 / total_batches (["aa", "bb", "cc", "dd", "ee"] : List String).length 2)
    ∧ (total_batches (["aa", "bb", "cc", "dd", "ee"] : List String).length 2 = 1 →
        batch_interval (4 * 3600) (total_batches (["aa", "bb", "cc", "dd", "ee"] : List String).length 2) = 0)
    ∧ sleep_after_batch (total_batches (["aa", "bb", "cc", "dd", "ee"] : List String).length 2 - 1)
        (total_batches (["aa", "bb", "cc", "dd", "ee"] : List String).length 2) (4 * 3600) = false :=
  c9_theorem ["aa", "bb", "cc", "dd", "ee"] 2 4 0 (by decide) (by decide)
